import Mathlib

/-!
Shallow embedding of the langgraphplayground workflow engine core:
the tool-call detector (src/agent/graph.py, parse_tool_call), the tool
executor (call_tools), the tools (src/agent/tools.py, calculator),
the HITL resume handler (src/agent/webapp.py, resume_agent), and the
trip-planner revision loop (src/agent/trip_graph.py).
Pure functions are translated directly; external collaborators (the LLM,
the Tavily search client, Python builtins such as json.loads, re.search,
hash and eval) are modelled as explicit Lean functions or parameters.
-/

namespace LGP

/-! ## JSON values and a model of json.loads

JSON numbers are modelled as integers only (no claim input contains a
fractional number or an exponent), and the \u string escape is not
modelled; otherwise the parser follows the JSON grammar accepted by
the Python json module: optional whitespace between tokens, objects,
arrays, strings with the common escapes, true, false, null, and a
trailing-data check (json.loads rejects any non-whitespace remainder).
-/

inductive Json where
  | null : Json
  | bool (b : Bool) : Json
  | num (n : Int) : Json
  | str (s : String) : Json
  | arr (elems : List Json) : Json
  | obj (kvs : List (String × Json)) : Json

/-- JSON inter-token whitespace: space, tab, newline, carriage return. -/
def isJsonWs (c : Char) : Bool :=
  c = ' ' || c = '\t' || c = '\n' || c = '\r'

def skipWs (cs : List Char) : List Char :=
  cs.dropWhile isJsonWs

/-- The common JSON string escapes (\u is not modelled). -/
def escChar (c : Char) : Option Char :=
  if c = '"' then some '"'
  else if c = '\\' then some '\\'
  else if c = '/' then some '/'
  else if c = 'n' then some '\n'
  else if c = 't' then some '\t'
  else if c = 'r' then some '\r'
  else if c = 'b' then some (Char.ofNat 8)
  else if c = 'f' then some (Char.ofNat 12)
  else none

/-- Parse the body of a JSON string after the opening quote; returns the
decoded characters and the remainder after the closing quote. -/
def parseStringBody : List Char → Option (List Char × List Char)
  | [] => none
  | '"' :: rest => some ([], rest)
  | '\\' :: e :: rest =>
      match escChar e, parseStringBody rest with
      | some c, some (s, r) => some (c :: s, r)
      | _, _ => none
  | c :: rest =>
      match parseStringBody rest with
      | some (s, r) => some (c :: s, r)
      | none => none

def digitVal (c : Char) : Nat := c.toNat - 48

/-- Consume a maximal run of decimal digits. -/
def parseDigits : List Char → Nat → (Nat × List Char)
  | c :: rest, acc =>
      if c.isDigit then parseDigits rest (acc * 10 + digitVal c)
      else (acc, c :: rest)
  | [], acc => (acc, [])

mutual

/-- Parse one JSON value (fuel-indexed recursive descent). -/
def parseValue : Nat → List Char → Option (Json × List Char)
  | 0, _ => none
  | fuel + 1, cs =>
    match skipWs cs with
    | [] => none
    | '{' :: rest => parseObjBody fuel rest
    | '[' :: rest => parseArrBody fuel rest
    | '"' :: rest =>
        match parseStringBody rest with
        | some (s, r) => some (Json.str (String.mk s), r)
        | none => none
    | 't' :: 'r' :: 'u' :: 'e' :: rest => some (Json.bool true, rest)
    | 'f' :: 'a' :: 'l' :: 's' :: 'e' :: rest => some (Json.bool false, rest)
    | 'n' :: 'u' :: 'l' :: 'l' :: rest => some (Json.null, rest)
    | '-' :: c :: rest =>
        if c.isDigit then
          match parseDigits (c :: rest) 0 with
          | (n, r) => some (Json.num (-(n : Int)), r)
        else none
    | c :: rest =>
        if c.isDigit then
          match parseDigits (c :: rest) 0 with
          | (n, r) => some (Json.num (n : Int), r)
        else none

/-- Parse an object body right after the opening brace. -/
def parseObjBody : Nat → List Char → Option (Json × List Char)
  | 0, _ => none
  | fuel + 1, cs =>
    match skipWs cs with
    | '}' :: rest => some (Json.obj [], rest)
    | '"' :: rest =>
        match parseStringBody rest with
        | some (k, r) =>
            (match skipWs r with
             | ':' :: r2 =>
                match parseValue fuel r2 with
                | some (v, r3) => parseObjRest fuel [(String.mk k, v)] r3
                | none => none
             | _ => none)
        | none => none
    | _ => none

/-- Parse the remaining members of an object (accumulator holds the
members read so far, in reverse). -/
def parseObjRest : Nat → List (String × Json) → List Char → Option (Json × List Char)
  | 0, _, _ => none
  | fuel + 1, acc, cs =>
    match skipWs cs with
    | '}' :: rest => some (Json.obj acc.reverse, rest)
    | ',' :: rest =>
        (match skipWs rest with
         | '"' :: r =>
            match parseStringBody r with
            | some (k, r1) =>
              (match skipWs r1 with
               | ':' :: r2 =>
                  match parseValue fuel r2 with
                  | some (v, r3) => parseObjRest fuel ((String.mk k, v) :: acc) r3
                  | none => none
               | _ => none)
            | none => none
         | _ => none)
    | _ => none

/-- Parse an array body right after the opening bracket. -/
def parseArrBody : Nat → List Char → Option (Json × List Char)
  | 0, _ => none
  | fuel + 1, cs =>
    match skipWs cs with
    | ']' :: rest => some (Json.arr [], rest)
    | _ =>
        match parseValue fuel cs with
        | some (v, r) => parseArrRest fuel [v] r
        | none => none

/-- Parse the remaining elements of an array. -/
def parseArrRest : Nat → List Json → List Char → Option (Json × List Char)
  | 0, _, _ => none
  | fuel + 1, acc, cs =>
    match skipWs cs with
    | ']' :: rest => some (Json.arr acc.reverse, rest)
    | ',' :: rest =>
        match parseValue fuel rest with
        | some (v, r) => parseArrRest fuel (v :: acc) r
        | none => none
    | _ => none

end

/-- Model of Python json.loads: parse one value, then require only
whitespace to remain (json.loads raises on trailing data, modelled as
none).  The fuel s.length + 1 is sufficient because every recursive
call consumes at least one input character first. -/
def json_loads (s : String) : Option Json :=
  match parseValue (s.length + 1) s.data with
  | some (v, rest) => if skipWs rest = [] then some v else none
  | none => none

/-! ## The tool-call detector (src/agent/graph.py, parse_tool_call)

The detector receives the raw LLM text, strips it, tries a strict JSON
parse of the whole text (accepting when the parsed object carries both
the "tool" and "args" keys), and otherwise falls back to searching for
the regex pattern of a two-key tool-call object embedded in the text.
Python builtins are modelled by: json_loads above, pyStrip for
str.strip, pyHash for the per-process string hash, and an explicit
deterministic matcher for the regex (whose greedy character classes
cannot backtrack, so matching is deterministic).
-/

/-- Python str.isspace for the ASCII range: space, tab, newline,
carriage return, vertical tab, form feed.  Also the character class
of the regex escape for whitespace. -/
def isPyWs (c : Char) : Bool :=
  c = ' ' || c = '\t' || c = '\n' || c = '\r' || c = Char.ofNat 11 || c = Char.ofNat 12

/-- Model of Python str.strip: drop leading and trailing whitespace. -/
def pyStrip (s : String) : String :=
  String.mk (((s.data.dropWhile isPyWs).reverse.dropWhile isPyWs).reverse)

/-- content.startswith of an opening brace. -/
def headIsLbrace (s : String) : Bool :=
  match s.data with
  | '{' :: _ => true
  | _ => false

/-- content.endswith of a closing brace. -/
def lastIsRbrace (s : String) : Bool :=
  match s.data.getLast? with
  | some '}' => true
  | _ => false

/-- Model of the CPython string hash: within one interpreter process it
is a fixed deterministic function of the string, modelled here as a
concrete polynomial hash. -/
def pyHash (s : String) : Nat :=
  s.data.foldl (fun h c => (h * 31 + c.toNat) % 1000003) 7

/-- The call id assigned to a detected tool call:
call_ followed by hash(content) mod 100000. -/
def callIdOf (s : String) : String :=
  "call_" ++ toString (pyHash s % 100000)

/-- A detected tool call: the dict built by parse_tool_call.  The values
under the "tool" and "args" keys are arbitrary JSON values. -/
structure ToolCall where
  name : Json
  args : Json
  id : String

/-- Python key-membership test on a parsed JSON object. -/
def hasKey (kvs : List (String × Json)) (k : String) : Bool :=
  kvs.any (fun kv => kv.1 == k)

/-- Python dict indexing on a parsed JSON object: with repeated keys,
json.loads keeps the last occurrence. -/
def lookupLast (kvs : List (String × Json)) (k : String) : Option Json :=
  (kvs.reverse.find? (fun kv => kv.1 == k)).map (fun kv => kv.2)

/-- The strict first layer of parse_tool_call, applied to the stripped
content: if the text starts and ends with braces, json.loads succeeds,
and the parsed object carries the "tool" and "args" keys, build the
tool-call dict; every other case falls through to the regex layer. -/
def strictParse (t : String) : Option ToolCall :=
  if headIsLbrace t && lastIsRbrace t then
    match json_loads t with
    | some (Json.obj kvs) =>
        if hasKey kvs "tool" && hasKey kvs "args" then
          some { name := (lookupLast kvs "tool").getD Json.null
               , args := (lookupLast kvs "args").getD Json.null
               , id := callIdOf t }
        else none
    | _ => none
  else none

/-- Match a literal list of characters at the front of the input,
returning the remainder. -/
def litMatch : List Char → List Char → Option (List Char)
  | [], cs => some cs
  | p :: ps, c :: cs => if p = c then litMatch ps cs else none
  | _ :: _, [] => none

/-- Try the fallback regex pattern of parse_tool_call at the current
position.  The pattern is the literal opening of a two-key tool-call
object, with greedy whitespace runs, a nonempty run of non-quote
characters as the tool-name group, and a nonempty run of characters
without a closing brace as the args group.  All quantified classes
exclude the character that must follow them, so the greedy match is
the only possible match and no backtracking can occur. -/
def matchToolAt (cs : List Char) : Option (String × String) :=
  match litMatch "\x7b\"tool\":".data cs with
  | none => none
  | some r0 =>
    match r0.dropWhile isPyWs with
    | '"' :: r2 =>
        match r2.span (fun c => !(c = '"')) with
        | (g1, r3) =>
          if g1.isEmpty then none else
          match r3 with
          | '"' :: ',' :: r4 =>
            match litMatch "\"args\":".data (r4.dropWhile isPyWs) with
            | none => none
            | some r6 =>
              match r6.dropWhile isPyWs with
              | '{' :: r8 =>
                match r8.span (fun c => !(c = '}')) with
                | (g2, r9) =>
                  if g2.isEmpty then none else
                  match r9 with
                  | '}' :: '}' :: _ =>
                      some (String.mk g1, String.mk ('{' :: (g2 ++ ['}'])))
                  | _ => none
              | _ => none
          | _ => none
    | _ => none

/-- Model of re.search for the fallback pattern: try every start
position left to right, first success wins (the leftmost match). -/
def searchToolPattern : List Char → Option (String × String)
  | [] => none
  | c :: rest =>
      match matchToolAt (c :: rest) with
      | some g => some g
      | none => searchToolPattern rest

/-- The fallback second layer of parse_tool_call, applied to the
stripped content: search for the embedded pattern; on a match, decode
the args group with json.loads, treating a decode failure as no
detection. -/
def fallbackParse (t : String) : Option ToolCall :=
  match searchToolPattern t.data with
  | some (toolName, argsStr) =>
      match json_loads argsStr with
      | some a => some { name := Json.str toolName, args := a, id := callIdOf t }
      | none => none
  | none => none

/-- src/agent/graph.py parse_tool_call: detect a tool call in raw LLM
text.  An empty string is falsy in Python and returns none at once;
otherwise the content is stripped and the strict layer runs before the
regex fallback. -/
def parse_tool_call (content : String) : Option ToolCall :=
  if content = "" then none
  else
    match strictParse (pyStrip content) with
    | some tc => some tc
    | none => fallbackParse (pyStrip content)

/-! ## The tools (src/agent/tools.py)

The calculator tool first checks every character of the expression
against an allow list and then hands the expression to the Python eval
builtin with empty builtins.  eval on the allowed character set is
modelled by a recursive-descent evaluator over exact rationals with
the operators plus, minus, times, true division and parentheses, with
unary signs and decimal literals; division by zero is a caught error.
(The claims exercise only integer multiplication and the character
check.)
-/

/-- A Python numeric value: an exact fraction together with the
int-versus-float distinction (true division and decimal literals
produce floats, operations on ints stay ints with denominator one). -/
structure PyVal where
  num : Int
  den : Int
  isFloat : Bool

def PyVal.add (a b : PyVal) : PyVal :=
  ⟨a.num * b.den + b.num * a.den, a.den * b.den, a.isFloat || b.isFloat⟩

def PyVal.sub (a b : PyVal) : PyVal :=
  ⟨a.num * b.den - b.num * a.den, a.den * b.den, a.isFloat || b.isFloat⟩

def PyVal.mul (a b : PyVal) : PyVal :=
  ⟨a.num * b.num, a.den * b.den, a.isFloat || b.isFloat⟩

/-- Python true division always produces a float. -/
def PyVal.div (a b : PyVal) : PyVal :=
  ⟨a.num * b.den, a.den * b.num, true⟩

def PyVal.neg (a : PyVal) : PyVal :=
  ⟨-a.num, a.den, a.isFloat⟩

inductive Tok where
  | num (q : PyVal) : Tok
  | plus : Tok
  | minus : Tok
  | times : Tok
  | divide : Tok
  | lparen : Tok
  | rparen : Tok

/-- Numeric literal value: integer part and optional fraction digits;
a literal with a decimal point is a float. -/
def pyValOfParts (ip : Nat) (fracDigits : List Char) (float : Bool) : PyVal :=
  ⟨(ip : Int) * (10 : Int) ^ fracDigits.length +
     (fracDigits.foldl (fun a c => a * 10 + digitVal c) 0 : Int),
   (10 : Int) ^ fracDigits.length, float⟩

/-- Tokenize an arithmetic expression (spaces separate tokens; numeric
literals are digit runs with an optional decimal point on either
side). -/
def tokenize : Nat → List Char → Option (List Tok)
  | _, [] => some []
  | 0, _ :: _ => none
  | fuel + 1, c :: rest =>
    if c = ' ' then tokenize fuel rest
    else if c = '+' then (tokenize fuel rest).map (Tok.plus :: ·)
    else if c = '-' then (tokenize fuel rest).map (Tok.minus :: ·)
    else if c = '*' then (tokenize fuel rest).map (Tok.times :: ·)
    else if c = '/' then (tokenize fuel rest).map (Tok.divide :: ·)
    else if c = '(' then (tokenize fuel rest).map (Tok.lparen :: ·)
    else if c = ')' then (tokenize fuel rest).map (Tok.rparen :: ·)
    else if c.isDigit then
      match parseDigits (c :: rest) 0 with
      | (ip, r1) =>
        match r1 with
        | '.' :: r2 =>
            let frac := r2.takeWhile Char.isDigit
            (tokenize fuel (r2.dropWhile Char.isDigit)).map (Tok.num (pyValOfParts ip frac true) :: ·)
        | _ => (tokenize fuel r1).map (Tok.num (pyValOfParts ip [] false) :: ·)
    else if c = '.' then
      let r2 := rest
      let frac := r2.takeWhile Char.isDigit
      if frac.isEmpty then none
      else (tokenize fuel (r2.dropWhile Char.isDigit)).map (Tok.num (pyValOfParts 0 frac true) :: ·)
    else none

mutual

/-- expression: term ((plus | minus) term)* -/
def evalExpr : Nat → List Tok → Except String (PyVal × List Tok)
  | 0, _ => Except.error "invalid syntax"
  | fuel + 1, ts =>
    match evalTerm fuel ts with
    | Except.ok (v, r) => evalExprRest fuel v r
    | Except.error e => Except.error e

def evalExprRest : Nat → PyVal → List Tok → Except String (PyVal × List Tok)
  | 0, _, _ => Except.error "invalid syntax"
  | fuel + 1, acc, ts =>
    match ts with
    | Tok.plus :: r =>
        (match evalTerm fuel r with
         | Except.ok (v, r2) => evalExprRest fuel (acc.add v) r2
         | Except.error e => Except.error e)
    | Tok.minus :: r =>
        (match evalTerm fuel r with
         | Except.ok (v, r2) => evalExprRest fuel (acc.sub v) r2
         | Except.error e => Except.error e)
    | _ => Except.ok (acc, ts)

/-- term: factor ((times | divide) factor)* -/
def evalTerm : Nat → List Tok → Except String (PyVal × List Tok)
  | 0, _ => Except.error "invalid syntax"
  | fuel + 1, ts =>
    match evalFactor fuel ts with
    | Except.ok (v, r) => evalTermRest fuel v r
    | Except.error e => Except.error e

def evalTermRest : Nat → PyVal → List Tok → Except String (PyVal × List Tok)
  | 0, _, _ => Except.error "invalid syntax"
  | fuel + 1, acc, ts =>
    match ts with
    | Tok.times :: r =>
        (match evalFactor fuel r with
         | Except.ok (v, r2) => evalTermRest fuel (acc.mul v) r2
         | Except.error e => Except.error e)
    | Tok.divide :: r =>
        (match evalFactor fuel r with
         | Except.ok (v, r2) =>
            if v.num = 0 then Except.error "division by zero"
            else evalTermRest fuel (acc.div v) r2
         | Except.error e => Except.error e)
    | _ => Except.ok (acc, ts)

/-- factor: (plus | minus) factor | number | lparen expression rparen -/
def evalFactor : Nat → List Tok → Except String (PyVal × List Tok)
  | 0, _ => Except.error "invalid syntax"
  | fuel + 1, ts =>
    match ts with
    | Tok.plus :: r => evalFactor fuel r
    | Tok.minus :: r =>
        (match evalFactor fuel r with
         | Except.ok (v, r2) => Except.ok (v.neg, r2)
         | Except.error e => Except.error e)
    | Tok.num q :: r => Except.ok (q, r)
    | Tok.lparen :: r =>
        (match evalExpr fuel r with
         | Except.ok (v, r2) =>
            (match r2 with
             | Tok.rparen :: r3 => Except.ok (v, r3)
             | _ => Except.error "invalid syntax")
         | Except.error e => Except.error e)
    | _ => Except.error "invalid syntax"

end

/-- Model of the Python eval builtin restricted to the calculator's
allowed character set. -/
def pyEvalArith (s : String) : Except String PyVal :=
  match tokenize (s.length + 1) s.data with
  | none => Except.error "invalid syntax"
  | some ts =>
    match evalExpr (ts.length + 1) ts with
    | Except.ok (v, []) => Except.ok v
    | Except.ok (_, _ :: _) => Except.error "invalid syntax"
    | Except.error e => Except.error e

/-- Model of Python str on the numeric result: an int prints its
integer value; a float with an integral value prints with a trailing
.0; other floats print as an exact fraction (a stand-in for the float
repr, which no claim input reaches). -/
def pyNumStr (q : PyVal) : String :=
  if q.isFloat then
    if q.num % q.den = 0 then toString (q.num / q.den) ++ ".0"
    else toString q.num ++ "/" ++ toString q.den
  else toString (q.num / q.den)

/-- The allow list of the calculator tool. -/
def allowedChars : List Char := "0123456789+-*/(). ".data

/-- src/agent/tools.py calculator: reject any character outside the
allow list with a fixed error string, otherwise evaluate and wrap the
result; an evaluation error is caught and wrapped, never raised. -/
def calculator (expression : String) : String :=
  if expression.data.all (fun c => allowedChars.contains c) then
    match pyEvalArith expression with
    | Except.ok v => "Result: " ++ pyNumStr v
    | Except.error e => "Error: " ++ e
  else "Error: Invalid characters in expression"

/-! ## The tool executor (src/agent/graph.py, call_tools)

Messages model the LangChain message objects that the graph state
accumulates under the append merge policy.  A registered tool is a
function from its JSON argument mapping to a result string or to the
message of the exception it raised.
-/

/-- One entry of an AI message tool_calls list: the dict with string
name, argument mapping and call id that call_tools reads. -/
structure ToolCallRec where
  name : String
  args : Json
  id : String

/-- The message variants stored in the conversation state. -/
inductive Msg where
  | human (content : String) : Msg
  | ai (content : String) (tool_calls : List ToolCallRec) : Msg
  | tool (content : String) (tool_call_id : String) (name : String) : Msg

/-- A single quote character (for building the unknown-tool message). -/
def sq : String := String.singleton (Char.ofNat 39)

/-- A tool registry: tools_by_name as an association list; the body of
a tool either returns a result string or raises, modelled as an
Except value carrying the exception message. -/
def ToolRegistry : Type := List (String × (Json → Except String String))

def lookupTool (reg : ToolRegistry) (n : String) : Option (Json → Except String String) :=
  (reg.find? (fun t => t.1 == n)).map (fun t => t.2)

/-- The body of the per-call loop of call_tools: look the name up in
the registry; an unknown name yields an unknown-tool ToolMessage, a
raising tool yields a ToolMessage with the exception message, and a
successful tool yields a ToolMessage with the result — all three are
built and returned the same way. -/
def execToolCall (reg : ToolRegistry) (tc : ToolCallRec) : Msg :=
  match lookupTool reg tc.name with
  | some t =>
      match t tc.args with
      | Except.ok r => Msg.tool r tc.id tc.name
      | Except.error e => Msg.tool ("Error executing tool: " ++ e) tc.id tc.name
  | none => Msg.tool ("Tool " ++ sq ++ tc.name ++ sq ++ " not found") tc.id tc.name

/-- The tool_calls list of the last message (empty when the last
message is not an AI message carrying tool calls; call_tools is only
entered on a nonempty log whose last message is such an AI message). -/
def lastToolCalls (messages : List Msg) : List ToolCallRec :=
  match messages.getLast? with
  | some (Msg.ai _ tcs) => tcs
  | _ => []

/-- src/agent/graph.py call_tools: the partial state update (the list
of ToolMessages appended to the conversation by the append merge
policy of the messages field). -/
def call_tools (reg : ToolRegistry) (messages : List Msg) : List Msg :=
  (lastToolCalls messages).map (execToolCall reg)

/-- The calculator tool as registered (argument binding of the
expression field; a missing or non-string argument is a validation
error raised by the tool wrapper). -/
def calcTool (args : Json) : Except String String :=
  match args with
  | Json.obj kvs =>
      match lookupLast kvs "expression" with
      | some (Json.str e) => Except.ok (calculator e)
      | _ => Except.error "validation error for calculator"
  | _ => Except.error "validation error for calculator"

/-! ## The HITL resume handler (src/agent/webapp.py, resume_agent)

The handler reads the thread state (the pending nodes and the message
log), checks for a pending action, and either surfaces an error,
records a rejection marker, or optionally rewrites the pending tool
call and invokes the graph.  Interactions with the graph object are
recorded as explicit actions so that what the handler did (and did
not do) is part of its result; an update action merges into the
message log under the append policy of the messages field.
-/

/-- The part of a thread snapshot that resume_agent reads: the pending
node names (empty when nothing is pending) and the message log. -/
structure AgentThreadState where
  next : List String
  messages : List Msg

/-- The request body of the resume operation. -/
structure ResumeInput where
  thread_id : String
  approved : Bool
  modified_args : Option (List (String × Json))

/-- The graph operations resume_agent can perform: a state update
(merged by the append policy of the messages field) or an invocation
that drives the paused thread forward. -/
inductive GraphAction where
  | updateState (update : List Msg) : GraphAction
  | invokeGraph : GraphAction

/-- The caller-visible part of the handler response (the completed
response additionally carries the messages of the invocation result,
an external outcome not modelled here). -/
structure ResumeResponse where
  status : String
  message : String

/-- Python dict.update on a JSON object: existing keys keep their
position and take the new value, new keys are appended in order. -/
def dictUpdate (kvs upd : List (String × Json)) : List (String × Json) :=
  (kvs.map (fun kv =>
    match lookupLast upd kv.1 with
    | some v => (kv.1, v)
    | none => kv)) ++
  upd.filter (fun u => !(hasKey kvs u.1))

/-- Apply modified_args to the pending tool call (tool_calls[0].copy()
followed by args.update). -/
def applyModifiedArgs (tc : ToolCallRec) (m : List (String × Json)) : ToolCallRec :=
  match tc.args with
  | Json.obj kvs => { tc with args := Json.obj (dictUpdate kvs m) }
  | _ => tc

/-- src/agent/webapp.py resume_agent: no pending action is an error
with no graph interaction; a rejection records the rejection marker
and never invokes the graph; an approval optionally rewrites the
pending tool call and then invokes the graph. -/
def resume_agent (st : AgentThreadState) (inp : ResumeInput) :
    ResumeResponse × List GraphAction :=
  if st.next.isEmpty then
    ({ status := "error", message := "No pending action to resume" }, [])
  else if !inp.approved then
    ({ status := "rejected", message := "Tool execution rejected" },
     [GraphAction.updateState [Msg.human "[Tool execution rejected by user]"]])
  else
    match inp.modified_args with
    | some m =>
        (match st.messages.getLast? with
         | some (Msg.ai _ (tc :: _)) =>
             ({ status := "completed", message := "" },
              [GraphAction.updateState [Msg.ai "" [applyModifiedArgs tc m]],
               GraphAction.invokeGraph])
         | _ => ({ status := "completed", message := "" }, [GraphAction.invokeGraph]))
    | none => ({ status := "completed", message := "" }, [GraphAction.invokeGraph])

/-- The effect of the recorded update actions on the thread snapshot:
an update appends to the message log (the messages field carries the
append merge policy); an invocation is an external effect on the
graph, not a state edit performed by the handler itself. -/
def applyUpdates (st : AgentThreadState) (as : List GraphAction) : AgentThreadState :=
  as.foldl
    (fun s a =>
      match a with
      | GraphAction.updateState u => { s with messages := s.messages ++ u }
      | GraphAction.invokeGraph => s)
    st

/-! ## The trip-planner revision loop (src/agent/trip_graph.py)

The graph is planner → travel_plan → generate, then the conditional
edge of generate either ends the thread or continues through reflect →
travel_critique → generate.  Only the generation node touches
revision_number (it writes state.get of revision_number with default
zero, plus one) and only the conditional edge of generate can reach
the terminal marker, so the loop is modelled on the revision fields
alone; the LLM and search outputs the other fields carry do not
influence routing.
-/

inductive TripNode where
  | planner : TripNode
  | travel_plan : TripNode
  | generate : TripNode
  | reflect : TripNode
  | travel_critique : TripNode
  | terminal : TripNode
deriving DecidableEq

/-- The revision fields of TripState. -/
structure RevState where
  revision_number : Nat
  max_revisions : Nat
deriving DecidableEq

/-- The routes the conditional edge of the generation node returns. -/
inductive Route where
  | reflect : Route
  | terminal : Route
deriving DecidableEq

/-- TripPlannerGraph.should_continue: end once revision_number has
reached max_revisions, otherwise go to the critique node. -/
def should_continue (s : RevState) : Route :=
  if s.max_revisions ≤ s.revision_number then Route.terminal else Route.reflect

/-- One scheduler step of the compiled graph, restricted to the
revision fields: run the node of the current position (only generate
updates a revision field, incrementing revision_number from its
default-zero read) and follow the outgoing edge (only generate has a
conditional edge). -/
def tripStep : TripNode → RevState → TripNode × RevState
  | TripNode.planner, s => (TripNode.travel_plan, s)
  | TripNode.travel_plan, s => (TripNode.generate, s)
  | TripNode.generate, s =>
      let s2 : RevState := { s with revision_number := s.revision_number + 1 }
      match should_continue s2 with
      | Route.terminal => (TripNode.terminal, s2)
      | Route.reflect => (TripNode.reflect, s2)
  | TripNode.reflect, s => (TripNode.travel_critique, s)
  | TripNode.travel_critique, s => (TripNode.generate, s)
  | TripNode.terminal, s => (TripNode.terminal, s)

/-- Drive the thread for at most fuel steps, stopping at the terminal
marker; returns the position reached, the state there, and how many
times the generation node executed.  Running with smaller fuel yields
every intermediate configuration of the same run. -/
def tripExec : Nat → TripNode → RevState → TripNode × RevState × Nat
  | 0, n, s => (n, s, 0)
  | fuel + 1, n, s =>
    match n with
    | TripNode.terminal => (TripNode.terminal, s, 0)
    | _ =>
      let p := tripStep n s
      let r := tripExec fuel p.1 p.2
      (r.1, r.2.1, r.2.2 + (if n = TripNode.generate then 1 else 0))

/-! ## The critique research node (src/agent/trip_graph.py and
src/agent/essay_writer_graph.py, travel_critique_node)

The node asks the LLM for follow-up queries (external, a parameter),
copies the accumulated research content, runs at most two searches
(each search an external outcome: a result list, or an exception that
the node catches and skips), and appends every result to the copy.
The two files carry the same function; both are embedded.
-/

/-- The imperative search loop shared by the two critique nodes:
start from a copy of the accumulated content, and for each of the
first two queries append the contents of a successful search, skipping
a query whose search raised.  Returns the new content list and the
new-sources counter. -/
def critiqueSearchLoop (stContent : List String) (queries : List String)
    (outcome : String → Except String (List String)) : List String × Nat :=
  (queries.take 2).foldl
    (fun acc q =>
      match outcome q with
      | Except.ok rs => (acc.1 ++ rs, acc.2 + rs.length)
      | Except.error _ => acc)
    (stContent, 0)

/-- TripPlannerGraph.travel_critique_node, restricted to the content
field of its partial update (the other fields are the constant count
increment and a status message). -/
def trip_travel_critique_content (stContent : List String) (queries : List String)
    (outcome : String → Except String (List String)) : List String :=
  (critiqueSearchLoop stContent queries outcome).1

/-- EssayWriterGraph.travel_critique_node, identical code in
src/agent/essay_writer_graph.py, restricted the same way. -/
def essay_travel_critique_content (stContent : List String) (queries : List String)
    (outcome : String → Except String (List String)) : List String :=
  (critiqueSearchLoop stContent queries outcome).1

/-- The search results gathered by the loop, in order: the contents of
each successful search among the first two queries. -/
def gatherResults (queries : List String)
    (outcome : String → Except String (List String)) : List String :=
  ((queries.take 2).map (fun q =>
    match outcome q with
    | Except.ok rs => rs
    | Except.error _ => [])).flatten

/-! ## Claim inputs and spec-side predicates -/

/-- The first detection test vector: a bare tool-call JSON object. -/
def toolJsonInput : String :=
  "\x7b\"tool\": \"calculator\", \"args\": \x7b\"expression\": \"2+2\"\x7d\x7d"

/-- The third detection test vector: the same object followed by
trailing prose. -/
def toolJsonWithProse : String :=
  toolJsonInput ++ " Let me check that for you."

/-- A trimmed JSON object carrying the two expected keys and one
additional top-level key. -/
def extraKeyInput : String :=
  "\x7b\"tool\": \"t\", \"args\": \x7b\x7d, \"x\": 1\x7d"

/-- An input whose fallback-pattern match has a malformed args group
(the group is cut at the first closing brace of the nested object)
while the whole text is a well-formed tool-call object. -/
def nestedArgsInput : String :=
  "\x7b\"tool\": \"x\", \"args\": \x7b\"a\": \x7b\"b\": 1\x7d\x7d\x7d"

/-- An input whose fallback-pattern match has a malformed args group
and whose whole text is not valid JSON either. -/
def malformedArgsInput : String :=
  "\x7b\"tool\": \"x\", \"args\": \x7bbad\x7d\x7d"

/-- Modelled from the spec sentence for the strict layer: the trimmed
text is syntactically a single JSON object with exactly the two
expected top-level keys. -/
def strictAcceptsExactlyTwoKeys (c : String) : Bool :=
  match json_loads (pyStrip c) with
  | some (Json.obj kvs) =>
      hasKey kvs "tool" && hasKey kvs "args" &&
      kvs.all (fun kv => kv.1 == "tool" || kv.1 == "args")
  | _ => false

/-- The amended acceptance predicate of the strict layer: the trimmed
text starts and ends with braces and parses as a JSON object whose
top-level keys include the two expected keys (possibly among others). -/
def strictAcceptsTwoKeysLoose (c : String) : Bool :=
  headIsLbrace (pyStrip c) && lastIsRbrace (pyStrip c) &&
  (match json_loads (pyStrip c) with
   | some (Json.obj kvs) => hasKey kvs "tool" && hasKey kvs "args"
   | _ => false)

/-! ## C2 -/

/-- C2: the bare tool-call JSON object yields a ToolCall named
calculator with args mapping expression to 2+2; plain prose yields
none; the object followed by trailing prose still yields the embedded
ToolCall, and it does so via the fallback layer (the strict layer
rejects that input). -/
theorem tool_detection_vectors :
    parse_tool_call toolJsonInput =
      some { name := Json.str "calculator"
           , args := Json.obj [("expression", Json.str "2+2")]
           , id := callIdOf (pyStrip toolJsonInput) } ∧
    parse_tool_call "Hello, how are you?" = none ∧
    parse_tool_call toolJsonWithProse =
      some { name := Json.str "calculator"
           , args := Json.obj [("expression", Json.str "2+2")]
           , id := callIdOf (pyStrip toolJsonWithProse) } ∧
    strictParse (pyStrip toolJsonWithProse) = none :=
  ⟨rfl, rfl, rfl, rfl⟩

/-! ## C3 -/

/-- C3 counterexample: on a trimmed JSON object with an additional
top-level key the strict layer does accept (the code checks key
membership, not key exactness), while the claimed exactly-two-keys
condition does not hold. -/
theorem strict_layer_extra_key_counterexample :
    (strictParse (pyStrip extraKeyInput)).isSome = true ∧
    strictAcceptsExactlyTwoKeys extraKeyInput = false :=
  ⟨rfl, rfl⟩

/-- C3 amended: the strict layer produces a ToolCall precisely when
the trimmed text starts and ends with braces and parses as a single
JSON object whose top-level keys include the tool-name key and the
argument-mapping key, possibly among additional keys. -/
theorem strict_layer_two_keys (c : String) :
    (strictParse (pyStrip c)).isSome = strictAcceptsTwoKeysLoose c := by
  unfold strictParse strictAcceptsTwoKeysLoose
  cases hb : headIsLbrace (pyStrip c) && lastIsRbrace (pyStrip c)
  · simp [hb]
  · simp only [hb, if_true, Bool.true_and]
    cases hj : json_loads (pyStrip c) with
    | none => simp
    | some j =>
        cases j <;> simp
        case obj kvs =>
          cases hk1 : hasKey kvs "tool" <;> cases hk2 : hasKey kvs "args" <;>
            simp [hk1, hk2]

/-! ## C4 -/

/-- C4 counterexample: this input contains a substring matching the
two-key tool-call pattern whose args group is malformed JSON, yet the
detector returns a ToolCall rather than none, because the strict layer
accepts the whole text first. -/
theorem detector_strict_overrides_counterexample :
    searchToolPattern (pyStrip nestedArgsInput).data =
      some ("x", "\x7b\"a\": \x7b\"b\": 1\x7d") ∧
    json_loads "\x7b\"a\": \x7b\"b\": 1\x7d" = none ∧
    (parse_tool_call nestedArgsInput).isSome = true :=
  ⟨rfl, rfl, rfl⟩

/-- C4 amended: the detector is a total function, and whenever the
strict layer rejects the text and the fallback pattern matches with a
malformed args group, detection returns none instead of an error. -/
theorem detector_graceful_degradation (c n g : String)
    (hs : strictParse (pyStrip c) = none)
    (hf : searchToolPattern (pyStrip c).data = some (n, g))
    (hj : json_loads g = none) :
    parse_tool_call c = none := by
  unfold parse_tool_call
  by_cases hc : c = ""
  · simp [hc]
  · simp only [hc, if_false, hs]
    unfold fallbackParse
    rw [hf]
    dsimp only
    rw [hj]

theorem detector_graceful_degradation_witness :
    strictParse (pyStrip malformedArgsInput) = none ∧
    searchToolPattern (pyStrip malformedArgsInput).data = some ("x", "\x7bbad\x7d") ∧
    json_loads "\x7bbad\x7d" = none ∧
    parse_tool_call malformedArgsInput = none :=
  ⟨rfl, rfl, rfl,
   detector_graceful_degradation malformedArgsInput "x" "\x7bbad\x7d" rfl rfl rfl⟩

/-! ## C9 -/

theorem strictParse_id (t : String) (tc : ToolCall)
    (h : strictParse t = some tc) : tc.id = callIdOf t := by
  unfold strictParse at h
  split at h
  · split at h
    · split at h
      · cases h; rfl
      · exact Option.noConfusion h
    · exact Option.noConfusion h
  · exact Option.noConfusion h

theorem fallbackParse_id (t : String) (tc : ToolCall)
    (h : fallbackParse t = some tc) : tc.id = callIdOf t := by
  unfold fallbackParse at h
  split at h
  · split at h
    · cases h; rfl
    · exact Option.noConfusion h
  · exact Option.noConfusion h

/-- C9: the call id of every detected ToolCall is the fixed function
callIdOf of the (stripped) input text, in both detection layers; hence
two detections on equal input strings yield equal call ids. -/
theorem call_id_deterministic :
    (∀ (c : String) (tc : ToolCall),
       parse_tool_call c = some tc → tc.id = callIdOf (pyStrip c)) ∧
    (∀ (c1 c2 : String) (tc1 tc2 : ToolCall), c1 = c2 →
       parse_tool_call c1 = some tc1 → parse_tool_call c2 = some tc2 →
       tc1.id = tc2.id) := by
  have main : ∀ (c : String) (tc : ToolCall),
      parse_tool_call c = some tc → tc.id = callIdOf (pyStrip c) := by
    intro c tc h
    unfold parse_tool_call at h
    by_cases hc : c = ""
    · simp [hc] at h
    · simp only [hc, if_false] at h
      cases hs : strictParse (pyStrip c) with
      | some tc0 =>
          rw [hs] at h
          cases h
          exact strictParse_id _ _ hs
      | none =>
          rw [hs] at h
          exact fallbackParse_id _ _ h
  refine ⟨main, ?_⟩
  intro c1 c2 tc1 tc2 heq h1 h2
  subst heq
  rw [main c1 tc1 h1, main c1 tc2 h2]

/-- The ToolCall detected from the first test vector. -/
def tcT1 : ToolCall :=
  { name := Json.str "calculator"
  , args := Json.obj [("expression", Json.str "2+2")]
  , id := callIdOf (pyStrip toolJsonInput) }

theorem call_id_deterministic_witness :
    parse_tool_call toolJsonInput = some tcT1 ∧
    tcT1.id = callIdOf (pyStrip toolJsonInput) :=
  ⟨rfl, call_id_deterministic.1 toolJsonInput tcT1 rfl⟩

/-! ## C5 -/

/-- C5: the tool-execution step turns every detected tool call into
exactly one result message, with no other outcome: an unknown name
yields the unknown-tool error message, a raising tool yields a message
carrying the exception message, and in every case the result joins the
returned message list (merged into the conversation by the append
policy) the same way as a successful result. -/
theorem tool_executor_absorbs_failures :
    (∀ (reg : ToolRegistry) (tc : ToolCallRec),
       lookupTool reg tc.name = none →
       execToolCall reg tc =
         Msg.tool ("Tool " ++ sq ++ tc.name ++ sq ++ " not found") tc.id tc.name) ∧
    (∀ (reg : ToolRegistry) (tc : ToolCallRec)
       (t : Json → Except String String) (e : String),
       lookupTool reg tc.name = some t → t tc.args = Except.error e →
       execToolCall reg tc =
         Msg.tool ("Error executing tool: " ++ e) tc.id tc.name) ∧
    (∀ (reg : ToolRegistry) (messages : List Msg),
       call_tools reg messages = (lastToolCalls messages).map (execToolCall reg)) := by
  refine ⟨?_, ?_, ?_⟩
  · intro reg tc h
    unfold execToolCall
    rw [h]
  · intro reg tc t e hl he
    unfold execToolCall
    rw [hl]
    dsimp only
    rw [he]
  · intro reg messages
    rfl

theorem tool_executor_absorbs_failures_witness :
    lookupTool [] (ToolCallRec.mk "nope" Json.null "c0").name = none ∧
    execToolCall [] (ToolCallRec.mk "nope" Json.null "c0") =
      Msg.tool ("Tool " ++ sq ++ "nope" ++ sq ++ " not found") "c0" "nope" ∧
    execToolCall [("calculator", calcTool)]
        (ToolCallRec.mk "calculator" Json.null "c1") =
      Msg.tool ("Error executing tool: " ++ "validation error for calculator")
        "c1" "calculator" :=
  ⟨rfl,
   tool_executor_absorbs_failures.1 [] (ToolCallRec.mk "nope" Json.null "c0") rfl,
   tool_executor_absorbs_failures.2.1 [("calculator", calcTool)]
     (ToolCallRec.mk "calculator" Json.null "c1") calcTool
     "validation error for calculator" rfl rfl⟩

/-! ## C6 -/

/-- C6: the calculator returns Result: 1200 on the expression 25*48,
and any expression containing a character outside the allowed set
returns the fixed invalid-characters error string (a result value,
never an exception). -/
theorem calculator_behaviour :
    calculator "25*48" = "Result: 1200" ∧
    (∀ e : String, (∃ ch ∈ e.data, allowedChars.contains ch = false) →
       calculator e = "Error: Invalid characters in expression") := by
  refine ⟨rfl, ?_⟩
  rintro e ⟨ch, hch, hbad⟩
  unfold calculator
  have hall : e.data.all (fun c => allowedChars.contains c) = false := by
    cases h : e.data.all (fun c => allowedChars.contains c)
    · rfl
    · have := List.all_eq_true.mp h ch hch
      rw [hbad] at this
      exact absurd this (by simp)
  rw [hall]
  rfl

theorem calculator_behaviour_witness :
    (∃ ch ∈ "25*4a".data, allowedChars.contains ch = false) ∧
    calculator "25*4a" = "Error: Invalid characters in expression" :=
  ⟨⟨'a', by decide, by decide⟩,
   calculator_behaviour.2 "25*4a" ⟨'a', by decide, by decide⟩⟩

/-! ## C7 -/

/-- C7: on a paused thread, a resume with approved false returns the
rejected response whose only graph interaction is a state update
appending the rejection marker to the message log; no graph invocation
occurs, so the pending node is never executed. -/
theorem reject_never_executes (st : AgentThreadState) (inp : ResumeInput)
    (hn : st.next ≠ []) (ha : inp.approved = false) :
    resume_agent st inp =
      ({ status := "rejected", message := "Tool execution rejected" },
       [GraphAction.updateState [Msg.human "[Tool execution rejected by user]"]]) ∧
    GraphAction.invokeGraph ∉ (resume_agent st inp).2 ∧
    applyUpdates st (resume_agent st inp).2 =
      { st with
        messages := st.messages ++ [Msg.human "[Tool execution rejected by user]"] } := by
  have hne : st.next.isEmpty = false := by
    cases h : st.next with
    | nil => exact absurd h hn
    | cons a l => rfl
  have h1 : resume_agent st inp =
      ({ status := "rejected", message := "Tool execution rejected" },
       [GraphAction.updateState [Msg.human "[Tool execution rejected by user]"]]) := by
    unfold resume_agent
    rw [hne, ha]
    rfl
  refine ⟨h1, ?_, ?_⟩
  · rw [h1]
    intro hmem
    rcases List.mem_singleton.mp hmem with h
    exact GraphAction.noConfusion h
  · rw [h1]
    rfl

def stPaused : AgentThreadState :=
  { next := ["tools"]
  , messages := [Msg.ai "" [ToolCallRec.mk "calculator"
      (Json.obj [("expression", Json.str "2+2")]) "call_1"]] }

def rejectInput : ResumeInput :=
  { thread_id := "thread-1", approved := false, modified_args := none }

theorem reject_never_executes_witness :
    stPaused.next ≠ [] ∧
    resume_agent stPaused rejectInput =
      ({ status := "rejected", message := "Tool execution rejected" },
       [GraphAction.updateState [Msg.human "[Tool execution rejected by user]"]]) :=
  ⟨by decide,
   (reject_never_executes stPaused rejectInput (by decide) rfl).1⟩

/-! ## C8 -/

/-- C8: a resume on a thread with no pending node returns the
no-pending-action error response, performs no graph interaction at
all, and leaves the thread state unchanged. -/
theorem resume_no_pending (st : AgentThreadState) (inp : ResumeInput)
    (h : st.next = []) :
    resume_agent st inp =
      ({ status := "error", message := "No pending action to resume" }, []) ∧
    applyUpdates st (resume_agent st inp).2 = st := by
  have hne : st.next.isEmpty = true := by rw [h]; rfl
  have h1 : resume_agent st inp =
      ({ status := "error", message := "No pending action to resume" }, []) := by
    unfold resume_agent
    rw [hne]
    rfl
  exact ⟨h1, by rw [h1]; rfl⟩

def stTerminal : AgentThreadState :=
  { next := [], messages := [Msg.human "hi"] }

def resumeAttempt : ResumeInput :=
  { thread_id := "thread-2", approved := true, modified_args := none }

theorem resume_no_pending_witness :
    stTerminal.next = [] ∧
    resume_agent stTerminal resumeAttempt =
      ({ status := "error", message := "No pending action to resume" }, []) ∧
    applyUpdates stTerminal (resume_agent stTerminal resumeAttempt).2 = stTerminal :=
  ⟨rfl,
   (resume_no_pending stTerminal resumeAttempt rfl).1,
   (resume_no_pending stTerminal resumeAttempt rfl).2⟩

/-! ## C10 -/

theorem critiqueSearchLoop_aux (outcome : String → Except String (List String)) :
    ∀ (qs : List String) (acc : List String × Nat),
      (qs.foldl (fun acc q =>
          match outcome q with
          | Except.ok rs => (acc.1 ++ rs, acc.2 + rs.length)
          | Except.error _ => acc) acc).1
        = acc.1 ++ ((qs.map (fun q =>
            match outcome q with
            | Except.ok rs => rs
            | Except.error _ => [])).flatten) := by
  intro qs
  induction qs with
  | nil => intro acc; simp
  | cons q rest ih =>
      intro acc
      simp only [List.foldl_cons, List.map_cons, List.flatten_cons]
      cases h : outcome q with
      | ok rs =>
          rw [ih]
          simp [List.append_assoc]
      | error e =>
          rw [ih]
          simp

/-- C10: in both the trip-planner and the essay-writer critique
research node, the content list of the returned partial update is the
input content list extended on the right with the gathered search
results: prior research is never dropped or reordered, so under the
replace merge policy of the content field research still accumulates
monotonically. -/
theorem critique_research_extends (stContent queries : List String)
    (outcome : String → Except String (List String)) :
    trip_travel_critique_content stContent queries outcome
      = stContent ++ gatherResults queries outcome ∧
    essay_travel_critique_content stContent queries outcome
      = stContent ++ gatherResults queries outcome ∧
    (∃ tail, trip_travel_critique_content stContent queries outcome
      = stContent ++ tail) := by
  have h : (critiqueSearchLoop stContent queries outcome).1
      = stContent ++ gatherResults queries outcome := by
    unfold critiqueSearchLoop gatherResults
    exact critiqueSearchLoop_aux outcome (queries.take 2) (stContent, 0)
  exact ⟨h, h, gatherResults queries outcome, h⟩

/-! ## C1 -/

theorem tripExec_terminal (fuel : Nat) (s : RevState) :
    tripExec fuel TripNode.terminal s = (TripNode.terminal, s, 0) := by
  cases fuel <;> rfl

theorem tripStep_max (n : TripNode) (s : RevState) :
    (tripStep n s).2.max_revisions = s.max_revisions := by
  cases n <;> try rfl
  simp only [tripStep]
  split <;> rfl

theorem tripExec_max (fuel : Nat) (n : TripNode) (s : RevState) :
    (tripExec fuel n s).2.1.max_revisions = s.max_revisions := by
  induction fuel generalizing n s with
  | zero => rfl
  | succ f ih =>
      cases n
      case terminal => rw [tripExec_terminal]
      all_goals
        simp only [tripExec]
        rw [ih]
        exact tripStep_max _ _

/-- The loop invariant of the revision machine: away from the terminal
marker the revision counter is strictly below the bound, at the
terminal marker it is at most the bound. -/
def tripInv : TripNode → RevState → Prop
  | TripNode.terminal, s => s.revision_number ≤ s.max_revisions
  | _, s => s.revision_number < s.max_revisions

theorem tripStep_inv (n : TripNode) (s : RevState) (h : tripInv n s) :
    tripInv (tripStep n s).1 (tripStep n s).2 := by
  cases n
  case planner => exact h
  case travel_plan => exact h
  case reflect => exact h
  case travel_critique => exact h
  case terminal => exact h
  case generate =>
    have h2 : s.revision_number < s.max_revisions := h
    by_cases hc : s.max_revisions ≤ s.revision_number + 1
    · have hstep : tripStep TripNode.generate s =
          (TripNode.terminal, { s with revision_number := s.revision_number + 1 }) := by
        simp [tripStep, should_continue, hc]
      rw [hstep]
      show s.revision_number + 1 ≤ s.max_revisions
      omega
    · have hstep : tripStep TripNode.generate s =
          (TripNode.reflect, { s with revision_number := s.revision_number + 1 }) := by
        simp [tripStep, should_continue, hc]
      rw [hstep]
      show s.revision_number + 1 < s.max_revisions
      omega

theorem tripExec_inv (fuel : Nat) (n : TripNode) (s : RevState)
    (h : tripInv n s) :
    tripInv (tripExec fuel n s).1 (tripExec fuel n s).2.1 := by
  induction fuel generalizing n s with
  | zero => exact h
  | succ f ih =>
      cases n
      case terminal => rw [tripExec_terminal]; exact h
      all_goals
        simp only [tripExec]
        exact ih _ _ (tripStep_inv _ _ h)

theorem tripInv_le (n : TripNode) (s : RevState) (h : tripInv n s) :
    s.revision_number ≤ s.max_revisions := by
  cases n <;> simp only [tripInv] at h <;> omega

theorem tripStep_generate_rev (s : RevState) :
    (tripStep TripNode.generate s).2.revision_number = s.revision_number + 1 := by
  simp only [tripStep]
  split <;> rfl

theorem tripStep_other_state (n : TripNode) (s : RevState)
    (h : n ≠ TripNode.generate) : (tripStep n s).2 = s := by
  cases n <;> first | rfl | exact absurd rfl h

theorem tripExec_succ (f : Nat) (n : TripNode) (s : RevState)
    (h : n ≠ TripNode.terminal) :
    tripExec (f + 1) n s =
      ((tripExec f (tripStep n s).1 (tripStep n s).2).1,
       (tripExec f (tripStep n s).1 (tripStep n s).2).2.1,
       (tripExec f (tripStep n s).1 (tripStep n s).2).2.2 +
         (if n = TripNode.generate then 1 else 0)) := by
  cases n <;> first | (exact absurd rfl h) | rfl

/-- Each execution of the generation node increments revision_number
by exactly one and nothing else changes it, so the generation count of
a run equals the total increase of revision_number. -/
theorem tripExec_count (fuel : Nat) (n : TripNode) (s : RevState) :
    (tripExec fuel n s).2.2 + s.revision_number
      = (tripExec fuel n s).2.1.revision_number := by
  induction fuel generalizing n s with
  | zero => simp [tripExec]
  | succ f ih =>
      cases n
      case terminal => simp [tripExec]
      case generate =>
          rw [tripExec_succ f TripNode.generate s (fun hh => TripNode.noConfusion hh)]
          rw [if_pos rfl]
          have hih := ih (tripStep TripNode.generate s).1 (tripStep TripNode.generate s).2
          rw [tripStep_generate_rev] at hih
          dsimp only
          omega
      case planner =>
          rw [tripExec_succ f TripNode.planner s (fun hh => TripNode.noConfusion hh)]
          rw [if_neg (fun hh => TripNode.noConfusion hh)]
          have hih := ih (tripStep TripNode.planner s).1 (tripStep TripNode.planner s).2
          have hrev : (tripStep TripNode.planner s).2.revision_number
              = s.revision_number := rfl
          rw [hrev] at hih
          dsimp only
          omega
      case travel_plan =>
          rw [tripExec_succ f TripNode.travel_plan s (fun hh => TripNode.noConfusion hh)]
          rw [if_neg (fun hh => TripNode.noConfusion hh)]
          have hih := ih (tripStep TripNode.travel_plan s).1 (tripStep TripNode.travel_plan s).2
          have hrev : (tripStep TripNode.travel_plan s).2.revision_number
              = s.revision_number := rfl
          rw [hrev] at hih
          dsimp only
          omega
      case reflect =>
          rw [tripExec_succ f TripNode.reflect s (fun hh => TripNode.noConfusion hh)]
          rw [if_neg (fun hh => TripNode.noConfusion hh)]
          have hih := ih (tripStep TripNode.reflect s).1 (tripStep TripNode.reflect s).2
          have hrev : (tripStep TripNode.reflect s).2.revision_number
              = s.revision_number := rfl
          rw [hrev] at hih
          dsimp only
          omega
      case travel_critique =>
          rw [tripExec_succ f TripNode.travel_critique s (fun hh => TripNode.noConfusion hh)]
          rw [if_neg (fun hh => TripNode.noConfusion hh)]
          have hih := ih (tripStep TripNode.travel_critique s).1
            (tripStep TripNode.travel_critique s).2
          have hrev : (tripStep TripNode.travel_critique s).2.revision_number
              = s.revision_number := rfl
          rw [hrev] at hih
          dsimp only
          omega

/-- Exact run of the revision loop: entering the generation node with
k + 1 revisions left runs generate exactly k + 1 more times and stops
at the terminal marker with the revision counter at the bound. -/
theorem tripExec_loop (k : Nat) :
    ∀ (fuel r : Nat), 3 * k + 1 ≤ fuel →
      tripExec fuel TripNode.generate ⟨r, r + k + 1⟩ =
        (TripNode.terminal, ⟨r + k + 1, r + k + 1⟩, k + 1) := by
  induction k with
  | zero =>
      intro fuel r hf
      obtain ⟨f, rfl⟩ : ∃ f, fuel = f + 1 := ⟨fuel - 1, by omega⟩
      have hstep : tripStep TripNode.generate ⟨r, r + 0 + 1⟩ =
          (TripNode.terminal, ⟨r + 0 + 1, r + 0 + 1⟩) := by
        simp [tripStep, should_continue]
      rw [tripExec_succ f TripNode.generate _ (fun hh => TripNode.noConfusion hh), hstep]
      dsimp only
      rw [tripExec_terminal]
      rfl
  | succ k ih =>
      intro fuel r hf
      obtain ⟨f, rfl⟩ : ∃ f, fuel = f + 1 := ⟨fuel - 1, by omega⟩
      have hc : ¬ (r + (k + 1) + 1 ≤ r + 1) := by omega
      have hstep : tripStep TripNode.generate ⟨r, r + (k + 1) + 1⟩ =
          (TripNode.reflect, ⟨r + 1, r + (k + 1) + 1⟩) := by
        simp [tripStep, should_continue, hc]
      rw [tripExec_succ f TripNode.generate _ (fun hh => TripNode.noConfusion hh), hstep]
      dsimp only
      obtain ⟨f1, rfl⟩ : ∃ f1, f = f1 + 1 := ⟨f - 1, by omega⟩
      rw [tripExec_succ f1 TripNode.reflect _ (fun hh => TripNode.noConfusion hh)]
      have hstep2 : tripStep TripNode.reflect ⟨r + 1, r + (k + 1) + 1⟩ =
          (TripNode.travel_critique, ⟨r + 1, r + (k + 1) + 1⟩) := rfl
      rw [hstep2]
      dsimp only
      obtain ⟨f2, rfl⟩ : ∃ f2, f1 = f2 + 1 := ⟨f1 - 1, by omega⟩
      rw [tripExec_succ f2 TripNode.travel_critique _ (fun hh => TripNode.noConfusion hh)]
      have hstep3 : tripStep TripNode.travel_critique ⟨r + 1, r + (k + 1) + 1⟩ =
          (TripNode.generate, ⟨r + 1, r + (k + 1) + 1⟩) := rfl
      rw [hstep3]
      dsimp only
      have harith : r + (k + 1) + 1 = r + 1 + k + 1 := by omega
      rw [harith]
      rw [ih f2 (r + 1) (by omega)]
      rfl

/-- C1 amended: for every max_revisions N with 1 ≤ N, a run from the
initial state (revision_number 0) reaches the terminal marker with the
generation node executed exactly N times, every prefix of the run has
generation count and revision_number at most N, and the conditional
edge after the generation node routes to the terminal marker exactly
when revision_number has reached max_revisions (the sole exit of the
loop).  With max_revisions 0 the code still runs the generation node
once, which the counterexample records. -/
theorem trip_revision_bound (N : Nat) (h : 1 ≤ N) :
    tripExec (3 * N + 3) TripNode.planner ⟨0, N⟩ =
      (TripNode.terminal, ⟨N, N⟩, N) ∧
    (∀ fuel : Nat,
       (tripExec fuel TripNode.planner ⟨0, N⟩).2.2 ≤ N ∧
       (tripExec fuel TripNode.planner ⟨0, N⟩).2.1.revision_number ≤ N) ∧
    (∀ s : RevState,
       should_continue s = Route.terminal ↔ s.max_revisions ≤ s.revision_number) := by
  refine ⟨?_, ?_, ?_⟩
  · obtain ⟨k, rfl⟩ : ∃ k, N = k + 1 := ⟨N - 1, by omega⟩
    have e1 : 3 * (k + 1) + 3 = (3 * k + 5) + 1 := by omega
    rw [e1]
    rw [tripExec_succ _ TripNode.planner _ (fun hh => TripNode.noConfusion hh)]
    have hstepA : tripStep TripNode.planner ⟨0, k + 1⟩ =
        (TripNode.travel_plan, ⟨0, k + 1⟩) := rfl
    rw [hstepA]
    dsimp only
    have e2 : 3 * k + 5 = (3 * k + 4) + 1 := by omega
    rw [e2]
    rw [tripExec_succ _ TripNode.travel_plan _ (fun hh => TripNode.noConfusion hh)]
    have hstepB : tripStep TripNode.travel_plan ⟨0, k + 1⟩ =
        (TripNode.generate, ⟨0, k + 1⟩) := rfl
    rw [hstepB]
    dsimp only
    have hloop := tripExec_loop k (3 * k + 4) 0 (by omega)
    have e3 : (0 : Nat) + k + 1 = k + 1 := by omega
    rw [e3] at hloop
    rw [hloop]
    rfl
  · intro fuel
    have hinv0 : tripInv TripNode.planner ⟨0, N⟩ := by
      show 0 < N
      omega
    have hi := tripExec_inv fuel TripNode.planner ⟨0, N⟩ hinv0
    have hle := tripInv_le _ _ hi
    have hm := tripExec_max fuel TripNode.planner ⟨0, N⟩
    have hc := tripExec_count fuel TripNode.planner ⟨0, N⟩
    dsimp only at hm hc
    exact ⟨by omega, by omega⟩
  · intro s
    unfold should_continue
    by_cases hc : s.max_revisions ≤ s.revision_number
    · simp [hc]
    · simp [hc]

theorem trip_revision_bound_witness :
    1 ≤ 2 ∧
    tripExec (3 * 2 + 3) TripNode.planner ⟨0, 2⟩ =
      (TripNode.terminal, ⟨2, 2⟩, 2) :=
  ⟨by decide, (trip_revision_bound 2 (by decide)).1⟩

/-- C1 counterexample: with max_revisions 0 the run still executes the
generation node once before the conditional edge is ever consulted, so
the terminal state carries generation count 1 and revision_number 1,
both exceeding max_revisions. -/
theorem trip_revision_bound_zero_counterexample :
    tripExec 10 TripNode.planner ⟨0, 0⟩ = (TripNode.terminal, ⟨1, 0⟩, 1) ∧
    ¬ (1 ≤ 0) :=
  ⟨rfl, by decide⟩

end LGP
